import Mathlib

/-!
Verification development for the data-resolution layer of the Crop Knowledge
Explorer front end (the functions of `static/script.js`: category validation,
entry filtering, language projection, the detail-view language grid and the
image-path derivation with its lower-case fallback).

Modelling conventions:
* a JavaScript string field that may be `undefined` is an `Option String`;
* JavaScript truthiness of such a value (`undefined` and the empty string are
  falsy) is made explicit;
* a JavaScript object used as a map is an association list
  `List (String × key-value)` looked up by first match (object literals have
  unique keys);
* `String.prototype.toLowerCase`, `trim` and `charAt(0)` are modelled on the
  character list of the string, with `Char.toLower` / `Char.isWhitespace`
  covering the ASCII range the dataset and paths use.
-/

namespace CropExplorer

/-- Models JavaScript toLowerCase: lower-case every character. -/
def toLowerStr (s : String) : String := ⟨s.data.map Char.toLower⟩

/-- Models JavaScript trim: strip leading and trailing whitespace. -/
def trimStr (s : String) : String :=
  ⟨((s.data.dropWhile Char.isWhitespace).reverse.dropWhile Char.isWhitespace).reverse⟩

/-- JavaScript truthiness of a possibly-undefined string: `undefined` and
the empty string are falsy, every other string is truthy. -/
def truthy : Option String → Bool
  | none => false
  | some s => s ≠ ""

/-- JavaScript `a || b` on a possibly-undefined string `a` with a string
default `b`: the value of `a` when truthy, otherwise `b`. -/
def jsOr (a : Option String) (b : String) : String :=
  match a with
  | some s => if s ≠ "" then s else b
  | none => b

/-- Object lookup `obj[key]` on an association list: value of the first
binding of `key`, `none` when the key is absent. -/
def jsLookup {α : Type} (l : List (String × α)) (key : String) : Option α :=
  (l.find? (fun p => p.1 == key)).map Prod.snd

/-- One data row: the fields `crop.English` and `crop.Tamil` accessed by the
filter, the card renderer and the validator (either may be missing). -/
structure Crop where
  English : Option String
  Tamil : Option String
deriving DecidableEq

/-- The loaded `cropData` object: category name to ordered entry list. -/
def Snapshot : Type := List (String × List Crop)

/-- Models `cropData[category] || []` as used by `selectCategory` and
`validateCropCategorization`. -/
def entriesOf (snap : Snapshot) (category : String) : List Crop :=
  (jsLookup snap category).getD []

/-- The `categoryMap` constant: canonical English name to its category. -/
def categoryMap : List (String × String) :=
  [("Papaya", "Fruits"),
   ("Banana", "Fruits"),
   ("Guava", "Fruits"),
   ("Pomegranate", "Fruits"),
   ("Brinjal", "Vegetables"),
   ("Bitter Gourd", "Vegetables"),
   ("Bottle Gourd", "Vegetables"),
   ("Pumpkin", "Vegetables"),
   ("Bhendi (Okra)", "Vegetables"),
   ("Carrot", "Vegetables"),
   ("Cabbage", "Vegetables"),
   ("Cauliflower", "Vegetables"),
   ("Beans", "Vegetables"),
   ("Beetroot", "Vegetables"),
   ("Broccoli", "Vegetables"),
   ("Moringa", "Vegetables"),
   ("Palak", "Greens"),
   ("Amaranthus", "Greens"),
   ("Lettuce", "Greens"),
   ("Spinach", "Greens"),
   ("Potato", "Tubers"),
   ("Sweet Potato", "Tubers"),
   ("Cassava", "Tubers"),
   ("Ashwagandha", "Herbal"),
   ("Aloe Vera", "Herbal"),
   ("Tulsi", "Herbal"),
   ("Curry Leaves", "Herbal"),
   ("Fenugreek", "Herbal"),
   ("Vetiver", "Herbal"),
   ("Coriander", "Herbal"),
   ("Vermicompost Unit", "Units"),
   ("Poultry Unit", "Units"),
   ("Goat Unit", "Units"),
   ("Dairy Unit", "Units"),
   ("Azolla Unit", "Units")]

/-- The `allCategories` list hard-coded inside `validateCropCategorization`. -/
def allCategories : List String :=
  ["Fruits", "Vegetables", "Greens", "Tubers", "Herbal", "Units"]

/-- One diagnostic pushed onto `validationErrors`; the source serialises it
as the console warning naming the crop, its stored category and the category
the map expects. -/
structure MismatchReport where
  name : String
  stored : String
  expected : String
deriving DecidableEq

/-- Body of the inner `crops.forEach` of `validateCropCategorization`:
`cropName = crop.English; if (cropName && categoryMap[cropName])` then a
report is pushed exactly when `expectedCategory !== category`. -/
def reportOf (category : String) (crop : Crop) : Option MismatchReport :=
  match crop.English with
  | none => none
  | some cropName =>
    if cropName ≠ "" then
      match jsLookup categoryMap cropName with
      | some expectedCategory =>
        if expectedCategory ≠ "" then
          if expectedCategory ≠ category then
            some ⟨cropName, category, expectedCategory⟩
          else none
        else none
      | none => none
    else none

/-- The validator `validateCropCategorization`: walk the six fixed
categories and collect every report the inner loop pushes, in order. -/
def validateCropCategorization (snap : Snapshot) : List MismatchReport :=
  (allCategories.map (fun category => (entriesOf snap category).filterMap (reportOf category))).flatten

/-- State-passing form of the validator: its body only reads `cropData`
(`cropData[category]`, `crop.English`) and writes to the local
`validationErrors` array and the console, so the store it ran on is
returned unchanged alongside the diagnostics. -/
def validateCropCategorizationRun (snap : Snapshot) :
    List MismatchReport × Snapshot :=
  (validateCropCategorization snap, snap)

/-- The `allCrops.filter` predicate of `selectCategory`: drop header rows
(`crop.English === category`), rows whose Tamil is `'nan'`, empty or
missing, and rows whose English is missing or empty. -/
def validCrop (category : String) (crop : Crop) : Bool :=
  if crop.English == some category then false
  else if crop.Tamil == some "nan" || crop.Tamil == some "" || !(truthy crop.Tamil) then false
  else if !(truthy crop.English) || crop.English == some "" then false
  else true

/-- The `validCrops` list computed by `selectCategory`. -/
def validCrops (snap : Snapshot) (category : String) : List Crop :=
  (entriesOf snap category).filter (validCrop category)

/-- One record of the `uiTexts` table. -/
structure UIText where
  selectCategory : String
  backToCategories : String
  chooseLanguage : String
  noDataMessage : String
  noDataSubtitle : String
deriving DecidableEq

/-- The English record of `uiTexts`. -/
def uiTextEn : UIText :=
  { selectCategory := "Select a Category"
    backToCategories := "← Back to Categories"
    chooseLanguage := "Choose Language"
    noDataMessage := "Crop names not available in this language yet. Please select English or Tamil to view crop data."
    noDataSubtitle := "Please select English or Tamil to view crop data." }

/-- The `uiTexts` table keyed by language code. -/
def uiTexts : List (String × UIText) :=
  [("en", uiTextEn),
   ("ta",
    { selectCategory := "ஒரு பிரிவைத் தேர்ந்தெடுக்கவும்"
      backToCategories := "← பிரிவுகளுக்குத் திரும்பு"
      chooseLanguage := "மொழியைத் தேர்ந்தெடுக்கவும்"
      noDataMessage := "இந்த மொழியில் பயிர் பெயர்கள் இன்னும் கிடைக்கவில்லை. ஆங்கிலம் அல்லது தமிழைத் தேர்ந்தெடுக்கவும்."
      noDataSubtitle := "பயிர் விவரங்களைப் பார்க்க ஆங்கிலம் அல்லது தமிழைத் தேர்ந்தெடுக்கவும்." }),
   ("te",
    { selectCategory := "వర్గాన్ని ఎంచుకోండి"
      backToCategories := "← వర్గాలకు తిరిగి వెళ్ళు"
      chooseLanguage := "భాషను ఎంచుకోండి"
      noDataMessage := "ఈ భాషలో పంట పేర్లు అందుబాటులో లేవు. ఇంగ్లీష్ లేదా తమిళాన్ని ఎంచుకోండి."
      noDataSubtitle := "దయచేసి ఇంగ్లీష్ లేదా తమిళాన్ని ఎంచుకోండి." }),
   ("hi",
    { selectCategory := "श्रेणी चुनें"
      backToCategories := "← श्रेणियों पर वापस जाएँ"
      chooseLanguage := "भाषा चुनें"
      noDataMessage := "इस भाषा में फसल के नाम अभी उपलब्ध नहीं हैं। अंग्रेज़ी या तमिल चुनें।"
      noDataSubtitle := "कृपया अंग्रेज़ी या तमिल चुनें।" }),
   ("kn",
    { selectCategory := "ವರ್ಗವನ್ನು ಆಯ್ಕೆಮಾಡಿ"
      backToCategories := "← ವರ್ಗಗಳಿಗೆ ಹಿಂದಿರುಗಿ"
      chooseLanguage := "ಭಾಷೆಯನ್ನು ಆಯ್ಕೆಮಾಡಿ"
      noDataMessage := "ಈ ಭಾಷೆಯಲ್ಲಿ ಬೆಳೆ ಹೆಸರುಗಳು ಲಭ್ಯವಿಲ್ಲ. ಇಂಗ್ಲಿಷ್ ಅಥವಾ ತಮಿಳು ಆಯ್ಕೆಮಾಡಿ."
      noDataSubtitle := "ಇಂಗ್ಲಿಷ್ ಅಥವಾ ತಮಿಳು ಆಯ್ಕೆಮಾಡಿ." })]

/-- Models `uiTexts[currentLanguage] || uiTexts['en']`. -/
def uiTextOf (lang : String) : UIText :=
  (jsLookup uiTexts lang).getD uiTextEn

/-- The displayed crop-card name computed by `createCropCard`:
`(currentLanguage === 'ta') ? (crop.Tamil?.trim() || crop.English?.trim() || '-')
: (crop.English?.trim() || '-')`. -/
def createCropCardName (currentLanguage : String) (crop : Crop) : String :=
  if currentLanguage == "ta" then
    jsOr (crop.Tamil.map trimStr) (jsOr (crop.English.map trimStr) "-")
  else
    jsOr (crop.English.map trimStr) "-"

/-- What `selectCategory` puts into the crops grid: either the unsupported-
language message rendered by `showLanguageMessage`, or one card per entry
surviving the filter. -/
inductive CropsView where
  | message (text subtitle : String)
  | cards (names : List String)
deriving DecidableEq

/-- The grid contents `selectCategory` renders: it filters `validCrops`
first, then branches on `['te', 'hi', 'kn'].includes(currentLanguage)`. -/
def selectCategoryView (currentLanguage : String) (snap : Snapshot)
    (category : String) : CropsView :=
  if ["te", "hi", "kn"].contains currentLanguage then
    CropsView.message (uiTextOf currentLanguage).noDataMessage
      (uiTextOf currentLanguage).noDataSubtitle
  else
    CropsView.cards ((validCrops snap category).map (createCropCardName currentLanguage))

/-- The crop entries shown as cards by a view (none when the message is
shown instead). -/
def cardsOf : CropsView → List String
  | CropsView.cards l => l
  | CropsView.message _ _ => []

/-- Fixed label order of the detail-view grid (`languageOrder`). -/
def languageOrder : List String :=
  ["English", "Tamil", "Telugu", "Hindi", "Kannada", "Malayalam"]

/-- The `for (const [key, value] of Object.entries(languages))` scan inside
`getLanguageValue`: first key equal to the requested one up to case decides
the cell; no match renders the placeholder. -/
def scanLanguages (lowerKey : String) : List (String × String) → String
  | [] => "—"
  | (key, value) :: rest =>
    if toLowerStr key == lowerKey then
      (if value ≠ "" ∧ trimStr value ≠ "" ∧ value ≠ "nan" then value else "—")
    else scanLanguages lowerKey rest

/-- The helper `getLanguageValue` of `generateLanguageGrid`: exact key
first (`if (languages[langKey])`), then the case-insensitive scan. -/
def getLanguageValue (languages : List (String × String)) (langKey : String) : String :=
  match jsLookup languages langKey with
  | some value =>
    if value ≠ "" then
      (if value ≠ "" ∧ trimStr value ≠ "" ∧ value ≠ "nan" then value else "—")
    else scanLanguages (toLowerStr langKey) languages
  | none => scanLanguages (toLowerStr langKey) languages

/-- The label-value pairs of the 2x3 grid `generateLanguageGrid` emits
(each pair is wrapped in a language-item div by the source). -/
def generateLanguageGrid (languages : List (String × String)) : List (String × String) :=
  languageOrder.map (fun lang => (lang, getLanguageValue languages lang))

/-- Character class of the regex `[\s\(\)]+` used on crop names. -/
def isSepChar (c : Char) : Bool := c.isWhitespace || c == '(' || c == ')'

/-- Worker for the regex replacement: the flag records whether the previous
character belonged to the separator run currently being replaced. -/
def collapseSepsAux : Bool → List Char → List Char
  | _, [] => []
  | prevSep, c :: rest =>
    if isSepChar c then
      if prevSep then collapseSepsAux true rest
      else '_' :: collapseSepsAux true rest
    else c :: collapseSepsAux false rest

/-- Models `.replace(/[\s\(\)]+/g, "_")`: each maximal run of whitespace or
parenthesis characters becomes a single underscore. -/
def collapseSeps (l : List Char) : List Char := collapseSepsAux false l

/-- The `safeCrop` derivation of `populateCropModal`:
`cropName.toLowerCase().replace(/[\s\(\)]+/g, "_")`. -/
def safeCropOf (cropName : String) : String :=
  ⟨collapseSeps (toLowerStr cropName).data⟩

/-- Models JavaScript `charAt(0)`: the first character as a one-character
string, the empty string when there is none. -/
def charAt0 (s : String) : String :=
  match s.data with
  | [] => ""
  | c :: _ => ⟨[c]⟩

/-- The primary image path built by `populateCropModal` from the crop name
and category (both already defaulted through the source's or-empty guard). -/
def imagePathOf (cropName category : String) : String :=
  "/static/images/" ++ toLowerStr category ++ "/" ++ safeCropOf cropName ++ "/"
    ++ charAt0 (safeCropOf cropName) ++ "1.jpg"

/-- Primary candidate of the Asset Resolver written from the words of the
specification: lower-case the category and the entry name, collapse runs of
whitespace and parentheses in the entry name to one underscore, and form
the path images-slash-category-slash-name-slash-initial, then "1." and the
extension. Used only to compare the specification's derivation with the
source's. -/
def specPrimaryCandidate (category entryName ext : String) : String :=
  "images/" ++ toLowerStr category ++ "/" ++ safeCropOf entryName ++ "/"
    ++ charAt0 (safeCropOf entryName) ++ "1." ++ ext

/-- State of the modal image element: still trying a source, successfully
shown, or replaced by the no-image placeholder. -/
inductive ImgView where
  | trying (src : String)
  | shown (src : String)
  | placeholder
deriving DecidableEq

/-- The `handleImageError` handler: retry the fully lower-cased source once
(`fallbackPath = currentSrc.toLowerCase()`), show the placeholder when the
fallback would not differ. -/
def handleImageError (src : String) : ImgView :=
  if src ≠ toLowerStr src then ImgView.trying (toLowerStr src)
  else ImgView.placeholder

/-- One browser load attempt on the image element: a pending source either
loads, or its error handler runs; settled states stay settled. -/
def imgStep (loads : String → Bool) : ImgView → ImgView
  | ImgView.trying src => if loads src then ImgView.shown src else handleImageError src
  | v => v

/-- The modal content assembled by `populateCropModal`: title, primary
image path, the six-cell language grid, the botanical line. The image
element's failures are handled afterwards by `handleImageError` and never
remove the rest of the modal. -/
structure ModalView where
  title : String
  imagePath : String
  grid : List (String × String)
  botanical : String
deriving DecidableEq

/-- Models `populateCropModal` on the fetched detail record. -/
def populateCropModal (name category botanical_name : Option String)
    (languages : List (String × String)) : ModalView :=
  { title := jsOr name "Crop Details"
    imagePath := imagePathOf (jsOr name "") (jsOr category "")
    grid := generateLanguageGrid languages
    botanical := jsOr botanical_name "Not available" }

/-- The detail view after image resolution has settled: the modal content
together with the final state of its image element. -/
def detailView (loads : String → Bool) (m : ModalView) : ModalView × ImgView :=
  (m, imgStep loads (imgStep loads (ImgView.trying m.imagePath)))

/-- The amended projection of claim C1, written from the corrected reading
of the specification: a strict two-level fallback (requested language, then
English, then the placeholder "-"), where a field counts as available
exactly when it is present and non-blank after trimming — the literal
"nan" is NOT treated as absent by the card renderer. -/
def projectAmended (lang : String) (crop : Crop) : String :=
  let avail : Option String → Option String := fun f =>
    match f with
    | some s => if trimStr s ≠ "" then some (trimStr s) else none
    | none => none
  match (if lang = "ta" then avail crop.Tamil else none) with
  | some t => t
  | none =>
    match avail crop.English with
    | some e => e
    | none => "-"

/-- The Carrot row of the specification's scenario: Tamil is the absence
sentinel. -/
def carrotCrop : Crop := ⟨some "Carrot", some "nan"⟩

/-- The Beans row of the specification's scenario. -/
def beansCrop : Crop := ⟨some "Beans", some "பீன்ஸ்"⟩

/-- The scenario snapshot of the specification: one Vegetables category
holding the Carrot and Beans rows. -/
def demoSnapshot : Snapshot := [("Vegetables", [carrotCrop, beansCrop])]

/-- A snapshot whose single category key lies outside the validator's six
hard-coded categories, holding a crop the canonical map assigns to
Fruits. -/
def flowersSnapshot : Snapshot :=
  [("Flowers", [⟨some "Papaya", some "பப்பாளி"⟩])]

/-- A one-category snapshot exercising the validator: Carrot stored under
Fruits although the canonical map places it under Vegetables. -/
def misfiledSnapshot : Snapshot := [("Fruits", [⟨some "Carrot", none⟩])]

theorem char_toLower_idem (c : Char) : c.toLower.toLower = c.toLower := by
  unfold Char.toLower
  by_cases h : c.toNat ≥ 65 ∧ c.toNat ≤ 90
  · rw [if_pos h]
    have hv : (c.toNat + 32).isValidChar := by
      left
      omega
    have key : (Char.ofNat (c.toNat + 32)).toNat = c.toNat + 32 := by
      rw [Char.ofNat, dif_pos hv]
      simp [Char.ofNatAux, Char.toNat, UInt32.toNat, BitVec.toNat_ofNatLt]
    rw [if_neg]
    rw [key]
    omega
  · rw [if_neg h, if_neg h]

theorem toLowerStr_idem (s : String) : toLowerStr (toLowerStr s) = toLowerStr s := by
  unfold toLowerStr
  simp only [List.map_map]
  exact congrArg String.mk (List.map_congr_left (fun c _ => char_toLower_idem c))

theorem validCrop_eq_true_iff (category : String) (crop : Crop) :
    validCrop category crop = true ↔
      (crop.English ≠ some category ∧ crop.English ≠ none ∧ crop.English ≠ some ""
        ∧ crop.Tamil ≠ some "nan" ∧ crop.Tamil ≠ some "" ∧ crop.Tamil ≠ none) := by
  obtain ⟨e, t⟩ := crop
  cases e <;> cases t
  all_goals simp [validCrop, truthy]
  all_goals aesop

/-- C1 counterexample: the card renderer does not treat the absence
sentinel as absent — for the Tamil language an entry whose Tamil field is
the literal string "nan" is rendered as "nan", not as its English name
"Carrot" as the claim requires. -/
theorem cropCard_nan_counterexample :
    createCropCardName "ta" carrotCrop = "nan"
    ∧ createCropCardName "ta" carrotCrop ≠ "Carrot" := by decide

/-- C1 (amended): the name projection of `createCropCard` is a strict
two-level fallback — the trimmed requested-language field when present and
non-blank (the literal "nan" counts as a value here, not as absence),
otherwise the trimmed English field when present and non-blank, otherwise
the placeholder "-". -/
theorem cropCard_projection_amended (lang : String) (crop : Crop) :
    createCropCardName lang crop = projectAmended lang crop := by
  obtain ⟨e, t⟩ := crop
  by_cases hl : lang = "ta" <;>
    cases e <;> cases t <;>
    simp [createCropCardName, projectAmended, jsOr, hl] <;>
    split_ifs <;> simp_all

/-- C2: the filter of `selectCategory` drops exactly the header rows, the
rows whose English name is missing or empty, and the rows whose Tamil field
is "nan", empty or missing; consequently every surviving row has a usable
Tamil field, and the specification's Carrot/Beans scenario resolves to the
Beans row alone. -/
theorem selectCategory_filter_exact (snap : Snapshot) (category : String)
    (crop surv : Crop)
    (hmem : crop ∈ entriesOf snap category)
    (hsurv : surv ∈ validCrops snap category) :
    (crop ∈ validCrops snap category ↔
      (crop.English ≠ some category ∧ crop.English ≠ none ∧ crop.English ≠ some ""
        ∧ crop.Tamil ≠ some "nan" ∧ crop.Tamil ≠ some "" ∧ crop.Tamil ≠ none))
    ∧ (surv.Tamil ≠ some "nan" ∧ surv.Tamil ≠ some "" ∧ surv.Tamil ≠ none)
    ∧ validCrops demoSnapshot "Vegetables" = [beansCrop] := by
  refine ⟨?_, ?_, by decide⟩
  · rw [validCrops, List.mem_filter]
    simp [hmem, validCrop_eq_true_iff]
  · rw [validCrops, List.mem_filter] at hsurv
    have h := (validCrop_eq_true_iff category surv).mp hsurv.2
    exact ⟨h.2.2.2.1, h.2.2.2.2.1, h.2.2.2.2.2⟩

/-- Witness for C2 at the scenario snapshot: Carrot (Tamil "nan") is in the
stored Vegetables list, Beans survives the filter. -/
theorem selectCategory_filter_exact_witness :
    ((carrotCrop ∈ validCrops demoSnapshot "Vegetables" ↔
      (carrotCrop.English ≠ some "Vegetables" ∧ carrotCrop.English ≠ none
        ∧ carrotCrop.English ≠ some ""
        ∧ carrotCrop.Tamil ≠ some "nan" ∧ carrotCrop.Tamil ≠ some ""
        ∧ carrotCrop.Tamil ≠ none))
    ∧ (beansCrop.Tamil ≠ some "nan" ∧ beansCrop.Tamil ≠ some ""
        ∧ beansCrop.Tamil ≠ none)
    ∧ validCrops demoSnapshot "Vegetables" = [beansCrop]) :=
  selectCategory_filter_exact demoSnapshot "Vegetables" carrotCrop beansCrop
    (by decide) (by decide)

/-- C7: when the selected language is Telugu, Hindi or Kannada the crops
grid renders the fallback message of `showLanguageMessage` in that
language, and no crop cards at all. -/
theorem uiOnly_language_message (snap : Snapshot) (category lang : String)
    (h : lang = "te" ∨ lang = "hi" ∨ lang = "kn") :
    selectCategoryView lang snap category
        = CropsView.message (uiTextOf lang).noDataMessage (uiTextOf lang).noDataSubtitle
    ∧ cardsOf (selectCategoryView lang snap category) = [] := by
  rcases h with rfl | rfl | rfl <;> exact ⟨rfl, rfl⟩

/-- Witness for C7 at the scenario snapshot with Telugu selected. -/
theorem uiOnly_language_message_witness :
    selectCategoryView "te" demoSnapshot "Vegetables"
        = CropsView.message (uiTextOf "te").noDataMessage (uiTextOf "te").noDataSubtitle
    ∧ cardsOf (selectCategoryView "te" demoSnapshot "Vegetables") = [] :=
  uiOnly_language_message demoSnapshot "Vegetables" "te" (Or.inl rfl)

/-- C8: the resolver is deterministic — equal snapshots give equal filtered
lists — and the filtered list is a sublist of the stored category list, so
surviving entries keep their insertion order. -/
theorem resolve_stable_order (snap snap' : Snapshot) (category : String)
    (h : snap = snap') :
    validCrops snap category = validCrops snap' category
    ∧ (validCrops snap category).Sublist (entriesOf snap category) :=
  ⟨by rw [h], List.filter_sublist _⟩

/-- Witness for C8 at the scenario snapshot. -/
theorem resolve_stable_order_witness :
    validCrops demoSnapshot "Vegetables" = validCrops demoSnapshot "Vegetables"
    ∧ (validCrops demoSnapshot "Vegetables").Sublist (entriesOf demoSnapshot "Vegetables") :=
  resolve_stable_order demoSnapshot demoSnapshot "Vegetables" rfl

/-- C9: the validator only reads the snapshot — its state-passing embedding
returns the store unchanged, every category's entry list included, and its
only output is the diagnostic list. -/
theorem validator_pure (snap : Snapshot) :
    (validateCropCategorizationRun snap).2 = snap
    ∧ (∀ category, entriesOf (validateCropCategorizationRun snap).2 category
        = entriesOf snap category)
    ∧ (validateCropCategorizationRun snap).1 = validateCropCategorization snap :=
  ⟨rfl, fun _ => rfl, rfl⟩

/-- C5: the primary image candidate built by `populateCropModal` is exactly
the specification's derivation — lower-cased category, lower-cased entry
name with separator runs collapsed to single underscores, then the initial
letter and "1" — served from the static root with the jpg extension; in
particular Bitter Gourd under Fruits maps to
/static/images/fruits/bitter_gourd/b1.jpg. -/
theorem assetPath_primary_candidate (category cropName : String) :
    imagePathOf cropName category = "/static/" ++ specPrimaryCandidate category cropName "jpg"
    ∧ imagePathOf "Bitter Gourd" "Fruits" = "/static/images/fruits/bitter_gourd/b1.jpg" := by
  refine ⟨?_, by decide⟩
  apply String.ext
  simp only [imagePathOf, specPrimaryCandidate, String.data_append]
  simp [List.append_assoc]

/-- C6: the lower-casing retry of `handleImageError` is a single, final
fallback — lower-casing is idempotent, an already-lower-cased source fails
straight to the placeholder, two failed attempts always end in the
placeholder, and the rest of the assembled detail view survives the image
failure untouched. -/
theorem image_fallback_single_retry (loads : String → Bool) (primary : String)
    (m : ModalView)
    (h1 : loads primary = false) (h2 : loads (toLowerStr primary) = false) :
    toLowerStr (toLowerStr primary) = toLowerStr primary
    ∧ handleImageError (toLowerStr primary) = ImgView.placeholder
    ∧ imgStep loads (imgStep loads (ImgView.trying primary)) = ImgView.placeholder
    ∧ (detailView loads m).1 = m := by
  have hid := toLowerStr_idem primary
  refine ⟨hid, ?_, ?_, rfl⟩
  · rw [handleImageError, if_neg]
    simp [hid]
  · rw [imgStep, if_neg (by simp [h1])]
    by_cases hp : primary = toLowerStr primary
    · rw [handleImageError, if_neg (by simpa using hp.symm ▸ hp)]
      rfl
    · rw [handleImageError, if_pos (by simpa using hp)]
      rw [imgStep, if_neg (by simp [h2])]
      rw [handleImageError, if_neg]
      simp [hid]

/-- Witness for C6: a mixed-case source whose two attempts both fail. -/
theorem image_fallback_single_retry_witness :
    toLowerStr (toLowerStr "/static/images/Fruits/Guava/g1.jpg")
        = toLowerStr "/static/images/Fruits/Guava/g1.jpg"
    ∧ handleImageError (toLowerStr "/static/images/Fruits/Guava/g1.jpg")
        = ImgView.placeholder
    ∧ imgStep (fun _ => false)
        (imgStep (fun _ => false) (ImgView.trying "/static/images/Fruits/Guava/g1.jpg"))
        = ImgView.placeholder
    ∧ (detailView (fun _ => false)
        (populateCropModal (some "Guava") (some "Fruits") none [])).1
        = populateCropModal (some "Guava") (some "Fruits") none [] :=
  image_fallback_single_retry (fun _ => false) "/static/images/Fruits/Guava/g1.jpg"
    (populateCropModal (some "Guava") (some "Fruits") none []) rfl rfl

theorem scanLanguages_eq_find (lowerKey : String) (L : List (String × String)) :
    scanLanguages lowerKey L
      = (match L.find? (fun p => toLowerStr p.1 == lowerKey) with
         | some p => if p.2 ≠ "" ∧ trimStr p.2 ≠ "" ∧ p.2 ≠ "nan" then p.2 else "—"
         | none => "—") := by
  induction L with
  | nil => rfl
  | cons hd tl ih =>
    obtain ⟨k, val⟩ := hd
    by_cases hk : (toLowerStr k == lowerKey) = true
    · rw [scanLanguages, if_pos hk,
        @List.find?_cons_of_pos _ (fun p => toLowerStr p.1 == lowerKey) (k, val) tl hk]
    · rw [scanLanguages, if_neg hk,
        @List.find?_cons_of_neg _ (fun p => toLowerStr p.1 == lowerKey) (k, val) tl hk, ih]

/-- C10: for every label of the six-label grid and every language map, the
lookup tries the exact key first — a truthy exact binding alone decides the
cell by the truthy-trimmed-not-"nan" rule — and only when the exact key is
absent or bound to the empty string does it fall back to the scan; the scan
of an arbitrary map is decided by its first binding whose key lower-cases
like the label (every non-matching key is skipped, and with no match at all
the placeholder is rendered); a whitespace-only value renders the
placeholder; and an exact-case binding beats an earlier case-variant one. -/
theorem grid_lookup_case_insensitive (L M : List (String × String))
    (lang v w : String) (_hlang : lang ∈ languageOrder)
    (hexact : jsLookup L lang = some v) (hv : v ≠ "")
    (hM : jsLookup M lang = none ∨ jsLookup M lang = some "")
    (hw : trimStr w = "") :
    getLanguageValue L lang = (if trimStr v ≠ "" ∧ v ≠ "nan" then v else "—")
    ∧ getLanguageValue M lang = scanLanguages (toLowerStr lang) M
    ∧ scanLanguages (toLowerStr lang) M
        = (match M.find? (fun p => toLowerStr p.1 == toLowerStr lang) with
           | some p => if p.2 ≠ "" ∧ trimStr p.2 ≠ "" ∧ p.2 ≠ "nan" then p.2 else "—"
           | none => "—")
    ∧ getLanguageValue [(lang, w)] lang = "—"
    ∧ getLanguageValue [("English", "Guava"), ("TAMIL", "தமிழ்")] "Tamil" = "தமிழ்"
    ∧ getLanguageValue [("tamil", "x"), ("Tamil", "y")] "Tamil" = "y" := by
  refine ⟨?_, ?_, scanLanguages_eq_find (toLowerStr lang) M, ?_, by decide, by decide⟩
  · simp [getLanguageValue, hexact, hv]
  · rcases hM with h | h <;> simp [getLanguageValue, h]
  · by_cases hwe : w = ""
    · subst hwe
      simp [getLanguageValue, jsLookup, List.find?, scanLanguages]
    · simp [getLanguageValue, jsLookup, List.find?, hwe, hw]

/-- Witness for C10 at the Tamil label: an exact binding decides the cell,
a map holding only "English" and "TAMIL" keys falls back to the scan whose
first case-insensitive match (past the skipped "English" binding) fills the
cell, a blank value renders the placeholder, the exact key beats the
case-variant. -/
theorem grid_lookup_case_insensitive_witness :
    getLanguageValue [("English", "Guava"), ("Tamil", "மாம்பழம்")] "Tamil"
        = (if trimStr "மாம்பழம்" ≠ "" ∧ ("மாம்பழம்" : String) ≠ "nan" then "மாம்பழம்" else "—")
    ∧ getLanguageValue [("English", "Guava"), ("TAMIL", "தமிழ்")] "Tamil"
        = scanLanguages (toLowerStr "Tamil") [("English", "Guava"), ("TAMIL", "தமிழ்")]
    ∧ scanLanguages (toLowerStr "Tamil") [("English", "Guava"), ("TAMIL", "தமிழ்")]
        = (match [("English", "Guava"), ("TAMIL", "தமிழ்")].find?
              (fun p => toLowerStr p.1 == toLowerStr "Tamil") with
           | some p => if p.2 ≠ "" ∧ trimStr p.2 ≠ "" ∧ p.2 ≠ "nan" then p.2 else "—"
           | none => "—")
    ∧ getLanguageValue [("Tamil", "  ")] "Tamil" = "—"
    ∧ getLanguageValue [("English", "Guava"), ("TAMIL", "தமிழ்")] "Tamil" = "தமிழ்"
    ∧ getLanguageValue [("tamil", "x"), ("Tamil", "y")] "Tamil" = "y" :=
  grid_lookup_case_insensitive [("English", "Guava"), ("Tamil", "மாம்பழம்")]
    [("English", "Guava"), ("TAMIL", "தமிழ்")] "Tamil" "மாம்பழம்" "  "
    (by decide) (by decide) (by decide) (Or.inl (by decide)) (by decide)

theorem languageOrder_lower_injective :
    ∀ k ∈ languageOrder, ∀ l ∈ languageOrder, toLowerStr k = toLowerStr l → k = l := by
  decide

theorem scanLanguages_not_found (L : List (String × String)) (lang : String)
    (hlang : lang ∈ languageOrder) (hkeys : ∀ p ∈ L, p.1 ∈ languageOrder)
    (habs : ∀ p ∈ L, p.1 ≠ lang) :
    scanLanguages (toLowerStr lang) L = "—" := by
  induction L with
  | nil => rfl
  | cons hd tl ih =>
    obtain ⟨key, value⟩ := hd
    have hne : ¬(toLowerStr key == toLowerStr lang) = true := by
      simp only [beq_iff_eq]
      intro hEq
      exact habs (key, value) (List.mem_cons_self _ _)
        (languageOrder_lower_injective key (hkeys _ (List.mem_cons_self _ _)) lang hlang hEq)
    rw [scanLanguages, if_neg hne]
    exact ih (fun p hp => hkeys p (List.mem_cons_of_mem _ hp))
      (fun p hp => habs p (List.mem_cons_of_mem _ hp))

theorem scanLanguages_found (L : List (String × String)) (lang v : String)
    (hlang : lang ∈ languageOrder) (hkeys : ∀ p ∈ L, p.1 ∈ languageOrder)
    (hfound : jsLookup L lang = some v) :
    scanLanguages (toLowerStr lang) L
      = (if v ≠ "" ∧ trimStr v ≠ "" ∧ v ≠ "nan" then v else "—") := by
  induction L with
  | nil => simp [jsLookup] at hfound
  | cons hd tl ih =>
    obtain ⟨key, value⟩ := hd
    by_cases hk : key = lang
    · subst hk
      have hv : value = v := by
        simpa [jsLookup, List.find?] using hfound
      subst hv
      rw [scanLanguages, if_pos (by simp)]
    · have hne : ¬(toLowerStr key == toLowerStr lang) = true := by
        simp only [beq_iff_eq]
        intro hEq
        exact hk
          (languageOrder_lower_injective key (hkeys _ (List.mem_cons_self _ _)) lang hlang hEq)
      rw [scanLanguages, if_neg hne]
      have hrest : jsLookup tl lang = some v := by
        have hb : (key == lang) = false := by simp [hk]
        simpa [jsLookup, List.find?, hb] using hfound
      exact ih (fun p hp => hkeys p (List.mem_cons_of_mem _ hp)) hrest

theorem getLanguageValue_canonical (L : List (String × String)) (lang : String)
    (hlang : lang ∈ languageOrder) (hkeys : ∀ p ∈ L, p.1 ∈ languageOrder) :
    getLanguageValue L lang =
      (match jsLookup L lang with
       | some v => if trimStr v ≠ "" ∧ v ≠ "nan" then v else "—"
       | none => "—") := by
  cases hl : jsLookup L lang with
  | none =>
    rw [getLanguageValue, hl]
    have habs : ∀ p ∈ L, p.1 ≠ lang := by
      intro p hp hpe
      rcases hf : List.find? (fun q => q.1 == lang) L with _ | q
      · exact absurd (List.find?_eq_none.mp hf p hp) (by simp [hpe])
      · rw [jsLookup, hf] at hl
        simp at hl
    exact scanLanguages_not_found L lang hlang hkeys habs
  | some v =>
    by_cases hv : v = ""
    · subst hv
      simp only [getLanguageValue, hl]
      rw [if_neg (by simp), scanLanguages_found L lang "" hlang hkeys hl]
      decide
    · simp only [getLanguageValue, hl]
      simp [hv]

/-- C3: the detail grid lays out exactly the six labels English, Tamil,
Telugu, Hindi, Kannada, Malayalam in that order, fills every label
independently — the label's own value when present, non-blank and not
"nan", the literal placeholder otherwise, never the English value — and in
particular an entry without a Kannada binding shows the placeholder for
Kannada. -/
theorem detailGrid_independent_labels (L : List (String × String)) (lang : String)
    (hkeys : ∀ p ∈ L, p.1 ∈ languageOrder) (hlang : lang ∈ languageOrder) :
    (generateLanguageGrid L).map Prod.fst
        = ["English", "Tamil", "Telugu", "Hindi", "Kannada", "Malayalam"]
    ∧ (lang, getLanguageValue L lang) ∈ generateLanguageGrid L
    ∧ getLanguageValue L lang =
        (match jsLookup L lang with
         | some v => if trimStr v ≠ "" ∧ v ≠ "nan" then v else "—"
         | none => "—")
    ∧ getLanguageValue [("English", "Guava"), ("Tamil", "கொய்யா")] "Kannada" = "—" := by
  refine ⟨rfl, ?_, getLanguageValue_canonical L lang hlang hkeys, by decide⟩
  rw [generateLanguageGrid]
  exact List.mem_map_of_mem _ hlang

/-- Witness for C3 at an entry carrying only English and Tamil values. -/
theorem detailGrid_independent_labels_witness :
    (generateLanguageGrid [("English", "Guava"), ("Tamil", "கொய்யா")]).map Prod.fst
        = ["English", "Tamil", "Telugu", "Hindi", "Kannada", "Malayalam"]
    ∧ ("Kannada", getLanguageValue [("English", "Guava"), ("Tamil", "கொய்யா")] "Kannada")
        ∈ generateLanguageGrid [("English", "Guava"), ("Tamil", "கொய்யா")]
    ∧ getLanguageValue [("English", "Guava"), ("Tamil", "கொய்யா")] "Kannada" =
        (match jsLookup [("English", "Guava"), ("Tamil", "கொய்யா")] "Kannada" with
         | some v => if trimStr v ≠ "" ∧ v ≠ "nan" then v else "—"
         | none => "—")
    ∧ getLanguageValue [("English", "Guava"), ("Tamil", "கொய்யா")] "Kannada" = "—" :=
  detailGrid_independent_labels [("English", "Guava"), ("Tamil", "கொய்யா")] "Kannada"
    (by decide) (by decide)

theorem reportOf_eq_some (category : String) (crop : Crop) (r : MismatchReport)
    (h : reportOf category crop = some r) :
    crop.English = some r.name ∧ r.stored = category ∧ r.expected ≠ category
      ∧ jsLookup categoryMap r.name = some r.expected := by
  rcases he : crop.English with _ | n
  · simp [reportOf, he] at h
  · rcases hm : jsLookup categoryMap n with _ | exp
    · simp [reportOf, he, hm] at h
    · simp only [reportOf, he, hm] at h
      split_ifs at h with hn hexp hne
      injection h with h'
      subst h'
      exact ⟨rfl, rfl, hne, hm⟩

theorem categoryMap_lookup_nonempty (n e : String)
    (h : jsLookup categoryMap n = some e) : n ≠ "" ∧ e ≠ "" := by
  rcases hf : List.find? (fun p => p.1 == n) categoryMap with _ | p
  · rw [jsLookup, hf] at h
    simp at h
  · rw [jsLookup, hf] at h
    have hmem := List.mem_of_find?_eq_some hf
    have hkeys : ∀ q ∈ categoryMap, q.1 ≠ "" ∧ q.2 ≠ "" := by decide
    have h2 : p.2 = e := by simpa using h
    have h1 : p.1 = n := by simpa using List.find?_some hf
    rw [← h1, ← h2]
    exact hkeys p hmem

theorem count_reportPass_stored_ne (snap : Snapshot) (c : String)
    (r : MismatchReport) (hne : r.stored ≠ c) :
    ((entriesOf snap c).filterMap (reportOf c)).count r = 0 := by
  rw [List.count_eq_zero]
  intro hmem
  rw [List.mem_filterMap] at hmem
  obtain ⟨crop, _, hr⟩ := hmem
  exact hne (reportOf_eq_some c crop r hr).2.1

theorem count_reportPass_self (snap : Snapshot) (c n : String) :
    ((entriesOf snap c).filterMap (reportOf c)).count ⟨n, c, c⟩ = 0 := by
  rw [List.count_eq_zero]
  intro hmem
  rw [List.mem_filterMap] at hmem
  obtain ⟨crop, _, hr⟩ := hmem
  exact (reportOf_eq_some c crop _ hr).2.2.1 rfl

theorem count_reportPass_eq (crops : List Crop) (category n e : String)
    (hmap : jsLookup categoryMap n = some e) (hne : e ≠ category) :
    (crops.filterMap (reportOf category)).count ⟨n, category, e⟩
      = crops.countP (fun crop => crop.English == some n) := by
  obtain ⟨hn, he⟩ := categoryMap_lookup_nonempty n e hmap
  induction crops with
  | nil => rfl
  | cons hd tl ih =>
    rw [List.filterMap_cons, List.countP_cons]
    by_cases hname : hd.English = some n
    · have hr : reportOf category hd = some ⟨n, category, e⟩ := by
        simp [reportOf, hname, hn, hmap, he, hne]
      rw [hr]
      simp [ih, hname]
    · rcases hx : reportOf category hd with _ | r
      · simp [ih, hname]
      · have hrne : r ≠ ⟨n, category, e⟩ := by
          intro hEq
          have := (reportOf_eq_some category hd r hx).1
          rw [hEq] at this
          exact hname this
        simp only [List.count_cons_of_ne (Ne.symm hrne)]
        simp [ih, hname]

theorem sum_map_eq_of_mem_of_zeros (l : List String) (f : String → Nat) (c : String)
    (hmem : c ∈ l) (hnd : l.Nodup) (hz : ∀ b ∈ l, b ≠ c → f b = 0) :
    (l.map f).sum = f c := by
  induction l with
  | nil => cases hmem
  | cons hd tl ih =>
    rw [List.map_cons, List.sum_cons]
    rcases List.mem_cons.mp hmem with rfl | htl
    · have hall : ∀ b ∈ tl, f b = 0 := fun b hb =>
        hz b (List.mem_cons_of_mem _ hb) (fun hbc => (List.nodup_cons.mp hnd).1 (hbc ▸ hb))
      have hsum : (tl.map f).sum = 0 :=
        List.sum_eq_zero (fun x hx => by
          obtain ⟨b, hb, rfl⟩ := List.mem_map.mp hx
          exact hall b hb)
      rw [hsum, Nat.add_zero]
    · have hhd : f hd = 0 :=
        hz hd (List.mem_cons_self _ _) (fun hEq => (List.nodup_cons.mp hnd).1 (hEq ▸ htl))
      rw [hhd, Nat.zero_add]
      exact ih htl (List.nodup_cons.mp hnd).2
        (fun b hb => hz b (List.mem_cons_of_mem _ hb))

/-- C4 (amended): for a category among the six the validator actually
walks, a crop name the canonical map assigns to some category produces one
report per occurrence exactly when map and stored category disagree — none
when they agree — and every emitted report names a crop the canonical map
knows, so unmapped names are never reported. -/
theorem validator_mismatch_reports (snap : Snapshot) (category n e : String)
    (r : MismatchReport)
    (hcat : category ∈ allCategories)
    (hmap : jsLookup categoryMap n = some e)
    (hr : r ∈ validateCropCategorization snap) :
    (validateCropCategorization snap).count ⟨n, category, e⟩
      = (if e = category then 0
         else (entriesOf snap category).countP (fun crop => crop.English == some n))
    ∧ jsLookup categoryMap r.name = some r.expected := by
  constructor
  · have hflat : (validateCropCategorization snap).count ⟨n, category, e⟩
        = (allCategories.map (fun c =>
            ((entriesOf snap c).filterMap (reportOf c)).count ⟨n, category, e⟩)).sum := by
      rw [validateCropCategorization, List.count_flatten, List.map_map]
      rfl
    rw [hflat, sum_map_eq_of_mem_of_zeros allCategories _ category hcat (by decide)
      (fun b _ hbne => count_reportPass_stored_ne snap b ⟨n, category, e⟩ (Ne.symm hbne))]
    by_cases hec : e = category
    · subst hec
      rw [if_pos rfl]
      exact count_reportPass_self snap e n
    · rw [if_neg hec]
      exact count_reportPass_eq (entriesOf snap category) category n e hmap hec
  · rw [validateCropCategorization, List.mem_flatten] at hr
    obtain ⟨l, hl, hrl⟩ := hr
    rw [List.mem_map] at hl
    obtain ⟨c, _, rfl⟩ := hl
    rw [List.mem_filterMap] at hrl
    obtain ⟨crop, _, hcrop⟩ := hrl
    exact (reportOf_eq_some c crop r hcrop).2.2.2

/-- Witness for C4 at a snapshot filing Carrot under Fruits: the validator
emits exactly one report, naming Vegetables as the expected category. -/
theorem validator_mismatch_reports_witness :
    (validateCropCategorization misfiledSnapshot).count ⟨"Carrot", "Fruits", "Vegetables"⟩
      = (if ("Vegetables" : String) = "Fruits" then 0
         else (entriesOf misfiledSnapshot "Fruits").countP
           (fun crop => crop.English == some "Carrot"))
    ∧ jsLookup categoryMap (MismatchReport.mk "Carrot" "Fruits" "Vegetables").name
        = some (MismatchReport.mk "Carrot" "Fruits" "Vegetables").expected :=
  validator_mismatch_reports misfiledSnapshot "Fruits" "Carrot" "Vegetables"
    ⟨"Carrot", "Fruits", "Vegetables"⟩ (by decide) (by decide) (by decide)

/-- C4 counterexample: the validator only walks the six hard-coded
categories, so a Papaya entry stored under the extra category Flowers is
never reported although the canonical map assigns Papaya to Fruits — the
claim, quantifying over every category of the snapshot, demands a report
here. -/
theorem validator_unlisted_category_counterexample :
    validateCropCategorization flowersSnapshot = []
    ∧ (⟨some "Papaya", some "பப்பாளி"⟩ : Crop) ∈ entriesOf flowersSnapshot "Flowers"
    ∧ jsLookup categoryMap "Papaya" = some "Fruits"
    ∧ ("Fruits" : String) ≠ "Flowers" := by decide

end CropExplorer
